import Mathlib

/-!
Shallow embedding of `nova/network/model.py` (VLAN allocator, subnet address
pool, DHCP activation layer, public address pool / NAT controller).

The Redis hash that backs every entity is modelled as an association list
`List (κ × ν)`; `hset` / `hdel` / `hget` / `hkeys` mirror the store
primitives used by the source.  IP addresses inside one subnet are modelled
by their offset (`self.network[idx]` in the source becomes the `Nat` value
`idx`; the source only ever compares the resulting strings for equality, and
`str(network[idx])` is injective on `idx < len(network)`).

Side effects on the network backend that the claims observe — whether the
dnsmasq (DHCP) server for a network is running — are modelled as a boolean
field updated exactly where `linux_net.start_dnsmasq` / `stop_dnsmasq` are
called.  Backend calls with no bearing on any claim (bridge/vlan creation,
iptables rule confirmation) are not tracked.

Operations return `Except ε α × σ`: the second component is the datastore
state after the call, which on the `.error` path is the state at the moment
the Python code raises.
-/

namespace Nova

/-! ### Redis hash primitives -/

/-- Model of `hset T K F V`: set field `F` of the hash to `V`, overwriting any
previous binding (`datastore.Redis.instance().hset`). -/
def hset {κ ν : Type} [DecidableEq κ] (l : List (κ × ν)) (k : κ) (v : ν) :
    List (κ × ν) :=
  l.filter (fun e => e.1 ≠ k) ++ [(k, v)]

/-- Model of `hdel`: remove the binding of field `k`, if any. -/
def hdel {κ ν : Type} [DecidableEq κ] (l : List (κ × ν)) (k : κ) :
    List (κ × ν) :=
  l.filter (fun e => e.1 ≠ k)

/-- Model of `hget`: the value bound to field `k`, if any. -/
def hget {κ ν : Type} [DecidableEq κ] (l : List (κ × ν)) (k : κ) : Option ν :=
  match l with
  | [] => none
  | e :: t => if e.1 = k then some e.2 else hget t k

/-- Model of `hkeys`: the fields of the hash. -/
def hkeys {κ ν : Type} (l : List (κ × ν)) : List κ :=
  l.map (fun e => e.1)


/-! ### Errors raised by `nova.network.exception`

The exception module itself is not part of the sources; these constructors
mirror the exception classes the network model raises.
`resourcePoolExhausted` is modelled from the spec's error taxonomy (§7) so
that claims naming it can be stated; the network model code never raises it. -/

inductive NetErr where
  | noMoreAddresses : NetErr
  | addressNotAllocated : NetErr
  | addressAlreadyAssociated : NetErr
  | addressNotAssociated : NetErr
  | resourcePoolExhausted : NetErr
  deriving DecidableEq, Repr

/-! ### `BaseNetwork` / `DHCPNetwork`

`DHCPNet` is the state of one `DHCPNetwork` instance: the size of its
subnet (`len(self.network)`), the configured `FLAGS.cnt_vpn_clients`, the
`network:%s:hosts` lease hash (address offset → consumer target), and
whether the dnsmasq server for this network is currently running. -/

/-- Model of `BaseNetwork.NUM_STATIC_IPS = 3` (network, gateway, and cloudpipe). -/
def NUM_STATIC_IPS : Nat := 3

structure DHCPNet where
  size : Nat
  cntVpnClients : Nat
  hosts : List (Nat × String)
  dnsmasq : Bool
  deriving DecidableEq, Repr

namespace DHCPNet

/-- Model of `BaseNetwork.assigned`: the keys of the hosts hash. -/
def assigned (n : DHCPNet) : List Nat :=
  hkeys n.hosts

/-- Model of `BaseNetwork.available`: offsets
`range(NUM_STATIC_IPS, len(self.network) - (1 + cnt_vpn_clients))` whose
address is not already a key of the hosts hash, in ascending order. -/
def available (n : DHCPNet) : List Nat :=
  (List.range' NUM_STATIC_IPS (n.size - (1 + n.cntVpnClients) - NUM_STATIC_IPS)).filter
    (fun a => a ∉ n.assigned)

/-- Model of `BaseNetwork._add_host`: `hset` on the hosts hash. -/
def addHost (n : DHCPNet) (host : Nat) (target : String) : DHCPNet :=
  { n with hosts := hset n.hosts host target }

/-- Model of `BaseNetwork._rem_host`: `hdel` on the hosts hash. -/
def remHost (n : DHCPNet) (host : Nat) : DHCPNet :=
  { n with hosts := hdel n.hosts host }

/-- Model of `DHCPNetwork.express`: if any address is assigned, (re)start dnsmasq;
otherwise do nothing ("Not launching dnsmasq: no hosts.").  The bridge/vlan
creation and cloudpipe rules performed by `express` do not touch the state
the claims observe. -/
def express (n : DHCPNet) : DHCPNet :=
  if (n.assigned).length > 0 then { n with dnsmasq := true } else n

/-- Model of `DHCPNetwork.deexpress`: if no address is assigned, stop dnsmasq,
otherwise restart it. -/
def deexpress (n : DHCPNet) : DHCPNet :=
  if (n.assigned).length = 0 then { n with dnsmasq := false }
  else { n with dnsmasq := true }

/-- Model of `BaseNetwork.allocate_ip`: take the first available address, record the
lease, express, and return it; raise `NoMoreAddresses` when none is free. -/
def allocate_ip (n : DHCPNet) (mac : String) : Except NetErr Nat × DHCPNet :=
  match n.available with
  | [] => (.error .noMoreAddresses, n)
  | a :: _ => (.ok a, express (addHost n a mac))

/-- Model of `DHCPNetwork.allocate_vpn_ip`: unconditionally lease `network[2]` to the
given target (overwriting any existing lease of that slot) and return it. -/
def allocate_vpn_ip (n : DHCPNet) (mac : String) : Nat × DHCPNet :=
  (2, express (addHost n 2 mac))

/-- Model of `BaseNetwork.release_ip`: raise `AddressNotAllocated` when the address is
not assigned; otherwise `deexpress` then remove the lease. -/
def release_ip (n : DHCPNet) (a : Nat) : Except NetErr Unit × DHCPNet :=
  if a ∈ n.assigned then (.ok (), remHost (deexpress n) a)
  else (.error .addressNotAllocated, n)

end DHCPNet

/-! ### `PublicNetworkController` / `PublicAddress`

`PubNet` is the state of the `public:default` controller: the size of the
configured public CIDR (`len(self.network)`), the hosts hash (address
offset → project id), and the `PublicAddress` records keyed by address.
Only the fields the modelled operations read or write are kept in
`PubAddr`. -/

structure PubAddr where
  user_id : String
  project_id : String
  instance_id : String
  private_ip : String
  deriving DecidableEq, Repr

structure PubNet where
  size : Nat
  hosts : List (Nat × String)
  records : List (Nat × PubAddr)
  deriving DecidableEq, Repr

namespace PubNet

/-- Model of `BaseNetwork.assigned` on the public controller's hosts hash. -/
def assigned (n : PubNet) : List Nat :=
  hkeys n.hosts

/-- Model of `PublicNetworkController.available`: offsets
`range(2, len(self.network) - 1)` whose address is not already leased. -/
def available (n : PubNet) : List Nat :=
  (List.range' 2 (n.size - 1 - 2)).filter (fun a => a ∉ n.assigned)

/-- Model of `addr.get('private_ip', None)` on the stored `PublicAddress` record of
`a`: `none` when there is no record (or no field). -/
def privOf (n : PubNet) (a : Nat) : Option String :=
  (hget n.records a).map (fun r => r.private_ip)

/-- Model of `PublicNetworkController._add_host`: `hset` the hosts hash to the
project id and `PublicAddress.create` a record with `instance_id` and
`private_ip` both `'available'`. -/
def addHost (n : PubNet) (user_id project_id : String) (host : Nat) : PubNet :=
  { n with hosts := hset n.hosts host project_id,
           records := hset n.records host
             ⟨user_id, project_id, "available", "available"⟩ }

/-- Model of `PublicNetworkController._rem_host`: destroy the `PublicAddress` record
and `hdel` the hosts hash. -/
def remHost (n : PubNet) (host : Nat) : PubNet :=
  { n with hosts := hdel n.hosts host, records := hdel n.records host }

/-- The record-update half of `associate_address`: load the record of
`public_ip` (`get_host`), set `private_ip` and `instance_id`, save.  When no
stored record exists the save creates one whose other fields are the
defaults of a freshly loaded `PublicAddress`. -/
def saveAssoc (n : PubNet) (pub : Nat) (priv inst : String) : PubNet :=
  let r := (hget n.records pub).getD ⟨"", "", "available", "available"⟩
  let r2 := { r with private_ip := priv, instance_id := inst }
  { n with records := hset n.records pub r2 }

/-- Model of `PublicNetworkController.associate_address`.  Checks, in source order:
`public_ip` leased; no currently-leased address whose record binds
`private_ip`; `public_ip` itself unbound; then records the binding.  The
`express` call only manipulates NAT rules, outside the modelled state. -/
def associate_address (n : PubNet) (pub : Nat) (priv inst : String) :
    Except NetErr Unit × PubNet :=
  if pub ∉ n.assigned then
    (.error .addressNotAllocated, n)
  else if (n.assigned).any (fun a => privOf n a = some priv) then
    (.error .addressAlreadyAssociated, n)
  else if ((privOf n pub).getD "available") ≠ "available" then
    (.error .addressAlreadyAssociated, n)
  else
    (.ok (), saveAssoc n pub priv inst)

/-- Model of `PublicNetworkController.disassociate_address`. -/
def disassociate_address (n : PubNet) (pub : Nat) :
    Except NetErr Unit × PubNet :=
  if pub ∉ n.assigned then
    (.error .addressNotAllocated, n)
  else if ((privOf n pub).getD "available") = "available" then
    (.error .addressNotAssociated, n)
  else
    (.ok (), saveAssoc n pub "available" "available")

end PubNet

/-- A concrete public pool over a /24 public range: offsets 2, 3 and 4 are
leased; 2 and 3 are unassociated, 4 is already bound to a private address. -/
def pubPool : PubNet :=
  PubNet.mk 256
    [(2, "proj"), (3, "proj"), (4, "proj")]
    [(2, PubAddr.mk "usr" "proj" "available" "available"),
     (3, PubAddr.mk "usr" "proj" "available" "available"),
     (4, PubAddr.mk "usr" "proj" "i-9" "10.9.9.9")]

/-! ### VLAN allocator (`Vlan`, `get_vlan_for_project`)

`VlanState` pairs the contents of the shared `vlans` hash (project id →
vlan id) with the set of projects that currently exist according to
`AuthManager().get_project`. -/

structure VlanState where
  vlans : List (String × Nat)
  projects : List String
  deriving DecidableEq, Repr

namespace VlanState

/-- Model of `Vlan.lookup(project)`: the vlan recorded for the project, if any. -/
def lookup (s : VlanState) (p : String) : Option Nat :=
  hget s.vlans p

/-- Model of `Vlan.dict_by_vlan()[v]`: the project recorded as owner of vlan `v`. -/
def dictByVlan (s : VlanState) (v : Nat) : Option String :=
  (s.vlans.find? (fun e => e.2 = v)).map (fun e => e.1)

/-- Model of `Vlan.save` / `Vlan.create`: `hset` the project's vlan. -/
def save (s : VlanState) (p : String) (v : Nat) : VlanState :=
  { s with vlans := hset s.vlans p v }

/-- Model of `Vlan.destroy`: `hdel` the project's entry. -/
def destroy (s : VlanState) (p : String) : VlanState :=
  { s with vlans := hdel s.vlans p }

end VlanState

/-- The range walk of `get_vlan_for_project` over the remaining candidate
vlan ids.  At each `vnum`: an unowned id is assigned to `project_id`
(`Vlan.create`); an id owned by a still-existing project is skipped; an id
owned by a vanished project is reclaimed — its record destroyed, re-keyed
to `project_id` with the looked-up vlan value, and returned — unless the
owner has no record, in which case `vnum` is created fresh.  Exhausting the
range raises `AddressNotAllocated("Out of VLANs")`. -/
def scanVlans (project_id : String) :
    VlanState → List Nat → Except NetErr Nat × VlanState
  | s, [] => (.error .addressNotAllocated, s)
  | s, vnum :: rest =>
    match s.dictByVlan vnum with
    | none => (.ok vnum, s.save project_id vnum)
    | some old_project_id =>
      if old_project_id ∈ s.projects then
        scanVlans project_id s rest
      else
        match s.lookup old_project_id with
        | some v => (.ok v, (s.destroy old_project_id).save project_id v)
        | none => (.ok vnum, s.save project_id vnum)

/-- Model of `get_vlan_for_project(project_id)` with the configured flag values
`vlan_start` and `vlan_end` made explicit: return the existing vlan if one
is recorded, otherwise walk `range(vlan_start, vlan_end)`. -/
def get_vlan_for_project (vlan_start vlan_end : Nat) (s : VlanState)
    (project_id : String) : Except NetErr Nat × VlanState :=
  match s.lookup project_id with
  | some v => (.ok v, s)
  | none => scanVlans project_id s (List.range' vlan_start (vlan_end - vlan_start))

/-- One interleaved allocator call for tenant `q`: the datastore state it
leaves behind (errors leave the state as it was at the raise). -/
def allocStep (vlan_start vlan_end : Nat) (s : VlanState) (q : String) :
    VlanState :=
  (get_vlan_for_project vlan_start vlan_end s q).2

/-- A finite sequence of interleaved allocator calls. -/
def allocRun (vlan_start vlan_end : Nat) (s : VlanState) :
    List String → VlanState
  | [] => s
  | q :: qs => allocRun vlan_start vlan_end (allocStep vlan_start vlan_end s q) qs

/-! ## Theorems

General lemmas about the hash primitives, then the claim theorems. -/

theorem hkeys_hset {κ ν : Type} [DecidableEq κ] (l : List (κ × ν)) (k : κ)
    (v : ν) : hkeys (hset l k v) = hkeys (hdel l k) ++ [k] := by
  simp [hkeys, hset, hdel]

theorem hget_hset_self {κ ν : Type} [DecidableEq κ] (l : List (κ × ν))
    (k : κ) (v : ν) : hget (hset l k v) k = some v := by
  induction l with
  | nil => simp [hget, hset]
  | cons e t ih =>
    by_cases h : e.1 = k
    · simpa [hset, List.filter_cons, h] using ih
    · simpa [hset, List.filter_cons, h, hget] using ih

theorem hget_hset_other {κ ν : Type} [DecidableEq κ] (l : List (κ × ν))
    (k j : κ) (v : ν) (hne : j ≠ k) : hget (hset l k v) j = hget l j := by
  have hkj : ¬ k = j := fun hh => hne hh.symm
  induction l with
  | nil => simp [hget, hset, hkj]
  | cons e t ih =>
    by_cases h : e.1 = k
    · have hj : ¬ e.1 = j := by rw [h]; exact fun hh => hne hh.symm
      simpa [hset, List.filter_cons, h, hget, hj, hkj] using ih
    · by_cases hj : e.1 = j
      · simp [hset, List.filter_cons, h, hget, hj, hkj, hne]
      · simpa [hset, List.filter_cons, h, hget, hj, hkj] using ih

theorem hget_hdel_other {κ ν : Type} [DecidableEq κ] (l : List (κ × ν))
    (k j : κ) (hne : j ≠ k) : hget (hdel l k) j = hget l j := by
  have hkj : ¬ k = j := fun hh => hne hh.symm
  induction l with
  | nil => simp [hget, hdel]
  | cons e t ih =>
    by_cases h : e.1 = k
    · have hj : ¬ e.1 = j := by rw [h]; exact fun hh => hne hh.symm
      simpa [hdel, List.filter_cons, h, hget, hj, hkj] using ih
    · by_cases hj : e.1 = j
      · simp [hdel, List.filter_cons, h, hget, hj, hkj, hne]
      · simpa [hdel, List.filter_cons, h, hget, hj, hkj] using ih

theorem hget_eq_none {κ ν : Type} [DecidableEq κ] (l : List (κ × ν)) (k : κ)
    (h : k ∉ hkeys l) : hget l k = none := by
  induction l with
  | nil => simp [hget]
  | cons e t ih =>
    simp only [hkeys, List.map_cons, List.mem_cons, not_or] at h
    have he : ¬ e.1 = k := fun hh => h.1 hh.symm
    simpa [hget, he] using ih (by simpa [hkeys] using h.2)

theorem hdel_not_mem {κ ν : Type} [DecidableEq κ] (l : List (κ × ν)) (k : κ)
    (h : k ∉ hkeys l) : hdel l k = l := by
  induction l with
  | nil => rfl
  | cons e t ih =>
    simp only [hkeys, List.map_cons, List.mem_cons, not_or] at h
    have he : ¬ e.1 = k := fun hh => h.1 hh.symm
    simp only [hdel, List.filter_cons] at *
    simpa [he] using ih (by simpa [hkeys] using h.2)

theorem mem_hkeys_hdel {κ ν : Type} [DecidableEq κ] (l : List (κ × ν))
    (k j : κ) : j ∈ hkeys (hdel l k) ↔ j ∈ hkeys l ∧ j ≠ k := by
  simp only [hkeys, hdel, List.mem_map, List.mem_filter]
  constructor
  · rintro ⟨e, ⟨he, hk⟩, rfl⟩
    exact ⟨⟨e, he, rfl⟩, by simpa using hk⟩
  · rintro ⟨⟨e, he, rfl⟩, hk⟩
    exact ⟨e, ⟨he, by simpa using hk⟩, rfl⟩

theorem hdel_hset_self {κ ν : Type} [DecidableEq κ] (l : List (κ × ν))
    (k : κ) (v : ν) : hdel (hset l k v) k = hdel l k := by
  simp [hdel, hset, List.filter_append, List.filter_filter]

/-! ### Lemmas about the DHCP network operations -/

theorem DHCPNet.express_hosts (n : DHCPNet) : n.express.hosts = n.hosts := by
  unfold DHCPNet.express; split <;> rfl

theorem DHCPNet.express_size (n : DHCPNet) : n.express.size = n.size := by
  unfold DHCPNet.express; split <;> rfl

theorem DHCPNet.express_cnt (n : DHCPNet) :
    n.express.cntVpnClients = n.cntVpnClients := by
  unfold DHCPNet.express; split <;> rfl

theorem DHCPNet.deexpress_hosts (n : DHCPNet) : n.deexpress.hosts = n.hosts := by
  unfold DHCPNet.deexpress; split <;> rfl

theorem DHCPNet.deexpress_size (n : DHCPNet) : n.deexpress.size = n.size := by
  unfold DHCPNet.deexpress; split <;> rfl

theorem DHCPNet.deexpress_cnt (n : DHCPNet) :
    n.deexpress.cntVpnClients = n.cntVpnClients := by
  unfold DHCPNet.deexpress; split <;> rfl

theorem DHCPNet.mem_available (n : DHCPNet) (a : Nat) :
    a ∈ n.available ↔
      (NUM_STATIC_IPS ≤ a ∧ a < n.size - (1 + n.cntVpnClients)) ∧
        a ∉ n.assigned := by
  unfold DHCPNet.available
  rw [List.mem_filter]
  have hnum : NUM_STATIC_IPS = 3 := rfl
  constructor
  · rintro ⟨hr, hna⟩
    rw [List.mem_range'_1] at hr
    exact ⟨⟨hr.1, by omega⟩, by simpa using hna⟩
  · rintro ⟨⟨h1, h2⟩, hna⟩
    refine ⟨List.mem_range'_1.mpr ⟨h1, by omega⟩, by simpa using hna⟩

theorem DHCPNet.allocate_ip_ok (n : DHCPNet) (mac : String) (a : Nat)
    (h : (n.allocate_ip mac).1 = .ok a) :
    a ∈ n.available ∧ (n.allocate_ip mac).2 = (n.addHost a mac).express := by
  unfold DHCPNet.allocate_ip at h ⊢
  cases hav : n.available with
  | nil => rw [hav] at h; exact absurd h (by simp)
  | cons b t =>
    rw [hav] at h
    simp only [Except.ok.injEq] at h
    subst h
    exact ⟨List.mem_cons_self b t, rfl⟩

/-- C1: the spec claims that after any allocate/release sequence the DHCP
server runs iff the lease count is positive, and in particular that
releasing the last lease stops it.  The code violates this: `release_ip`
calls `deexpress` *before* `_rem_host`, so inside `deexpress` the released
address still counts as assigned, `len(self.assigned) == 0` is false, and
dnsmasq is restarted instead of stopped.  Concretely, on a fresh /24
network one `allocate_ip` (returning offset 3) followed by `release_ip 3`
ends with an empty lease mapping and dnsmasq still running.  The code
contradicts its own comment ("if this is the last address, stop dns"):
the claim is recorded as a code bug. -/
theorem c1_dhcp_serving_invariant_bug :
    ((DHCPNet.mk 256 5 [] false).allocate_ip "52:54:00:00:00:01").1
        = .ok 3 ∧
    ((((DHCPNet.mk 256 5 [] false).allocate_ip "52:54:00:00:00:01").2).release_ip 3).1
        = .ok () ∧
    (((((DHCPNet.mk 256 5 [] false).allocate_ip "52:54:00:00:00:01").2).release_ip 3).2).hosts
        = [] ∧
    (((((DHCPNet.mk 256 5 [] false).allocate_ip "52:54:00:00:00:01").2).release_ip 3).2).dnsmasq
        = true :=
  ⟨rfl, rfl, rfl, rfl⟩

/-- C4: an address returned by `allocate_ip` always lies at an offset in
`[NUM_STATIC_IPS, size - (1 + cnt_vpn_clients))` of the subnet — never in
the reserved static block nor in the top `1 + cnt_vpn_clients` block; for a
/24 subnet with `cnt_vpn_clients = 5` this is the window `[3, 250)`. -/
theorem c4_allocate_respects_reserved (n : DHCPNet) (mac : String) (a : Nat)
    (h : (n.allocate_ip mac).1 = .ok a) :
    (NUM_STATIC_IPS ≤ a ∧ a < n.size - (1 + n.cntVpnClients)) ∧
      (n.size = 256 → n.cntVpnClients = 5 → 3 ≤ a ∧ a < 250) := by
  have hmem := (n.allocate_ip_ok mac a h).1
  have hb := (DHCPNet.mem_available n a).mp hmem
  refine ⟨hb.1, ?_⟩
  intro h256 hcnt
  have hnum : NUM_STATIC_IPS = 3 := rfl
  obtain ⟨h1, h2⟩ := hb.1
  rw [hnum] at h1
  rw [h256, hcnt] at h2
  omega

/-- Witness for C4 on a fresh /24 network: the first allocation returns
offset 3, which lies in `[3, 250)`. -/
theorem c4_witness :
    ((DHCPNet.mk 256 5 [] false).allocate_ip "52:54:00:00:00:01").1 = .ok 3 ∧
      (3 ≤ 3 ∧ 3 < 250) :=
  ⟨rfl, (c4_allocate_respects_reserved (DHCPNet.mk 256 5 [] false)
      "52:54:00:00:00:01" 3 rfl).2 rfl rfl⟩

/-- C5: releasing an address that is not currently leased raises
`AddressNotAllocated` and returns the state exactly as it was (the check
precedes every write); releasing a leased address succeeds, calling
`deexpress` and then removing the lease from the hosts hash. -/
theorem c5_release_error_and_success (n : DHCPNet) (a : Nat) :
    (a ∉ n.assigned → n.release_ip a = (.error .addressNotAllocated, n)) ∧
      (a ∈ n.assigned →
        n.release_ip a = (.ok (), (n.deexpress).remHost a) ∧
          ((n.release_ip a).2).hosts = hdel n.hosts a) := by
  constructor
  · intro h
    unfold DHCPNet.release_ip
    rw [if_neg h]
  · intro h
    unfold DHCPNet.release_ip
    rw [if_pos h]
    exact ⟨rfl, by simp [DHCPNet.remHost, DHCPNet.deexpress_hosts]⟩

/-- Witness for C5: on a network with only offset 3 leased, releasing 7
fails with `AddressNotAllocated` leaving the state untouched, and releasing
3 succeeds. -/
theorem c5_witness :
    (DHCPNet.mk 256 5 [(3, "52:54:00:00:00:01")] true).release_ip 7
        = (.error .addressNotAllocated,
            DHCPNet.mk 256 5 [(3, "52:54:00:00:00:01")] true) ∧
      (DHCPNet.mk 256 5 [(3, "52:54:00:00:00:01")] true).release_ip 3
        = (.ok (), ((DHCPNet.mk 256 5 [(3, "52:54:00:00:00:01")] true).deexpress).remHost 3) :=
  ⟨(c5_release_error_and_success (DHCPNet.mk 256 5 [(3, "52:54:00:00:00:01")] true) 7).1
      (by decide),
    ((c5_release_error_and_success (DHCPNet.mk 256 5 [(3, "52:54:00:00:00:01")] true) 3).2
      (by decide)).1⟩

/-- C6: when `allocate_ip` returns address `a`, a subsequent `release_ip a`
succeeds, and afterwards `a` is absent from the lease mapping and again a
member of `available`, the set a further `allocate_ip` draws from. -/
theorem c6_allocate_release_roundtrip (n : DHCPNet) (mac : String) (a : Nat)
    (h : (n.allocate_ip mac).1 = .ok a) :
    ((((n.allocate_ip mac).2).release_ip a).1 = .ok ()) ∧
      a ∉ ((((n.allocate_ip mac).2).release_ip a).2).assigned ∧
      a ∈ ((((n.allocate_ip mac).2).release_ip a).2).available := by
  obtain ⟨hmem, hst⟩ := n.allocate_ip_ok mac a h
  obtain ⟨⟨hlo, hhi⟩, hna⟩ := (DHCPNet.mem_available n a).mp hmem
  set n1 := (n.allocate_ip mac).2 with hn1
  have h1hosts : n1.hosts = hset n.hosts a mac := by
    rw [hst, DHCPNet.express_hosts]; rfl
  have h1assigned : a ∈ n1.assigned := by
    unfold DHCPNet.assigned
    rw [h1hosts, hkeys_hset]
    simp
  have hrel : n1.release_ip a = (.ok (), (n1.deexpress).remHost a) ∧
      ((n1.release_ip a).2).hosts = hdel n1.hosts a :=
    (c5_release_error_and_success n1 a).2 h1assigned
  have h2hosts : ((n1.release_ip a).2).hosts = n.hosts := by
    rw [hrel.2, h1hosts, hdel_hset_self]
    exact hdel_not_mem n.hosts a hna
  have h2size : ((n1.release_ip a).2).size = n.size := by
    rw [hrel.1]
    show ((n1.deexpress).remHost a).size = n.size
    rw [show ((n1.deexpress).remHost a).size = n1.deexpress.size from rfl,
      DHCPNet.deexpress_size, hst, DHCPNet.express_size]
    rfl
  have h2cnt : ((n1.release_ip a).2).cntVpnClients = n.cntVpnClients := by
    rw [hrel.1]
    show ((n1.deexpress).remHost a).cntVpnClients = n.cntVpnClients
    rw [show ((n1.deexpress).remHost a).cntVpnClients = n1.deexpress.cntVpnClients from rfl,
      DHCPNet.deexpress_cnt, hst, DHCPNet.express_cnt]
    rfl
  have h2assigned : a ∉ ((n1.release_ip a).2).assigned := by
    unfold DHCPNet.assigned
    rw [h2hosts]
    exact hna
  refine ⟨by rw [hrel.1], h2assigned, ?_⟩
  rw [DHCPNet.mem_available, h2size, h2cnt]
  exact ⟨⟨hlo, hhi⟩, h2assigned⟩

/-- Witness for C6 on a fresh /24 network: allocate returns offset 3, and
after releasing it, 3 is unassigned and available again. -/
theorem c6_witness :
    ((DHCPNet.mk 256 5 [] false).allocate_ip "52:54:00:00:00:01").1 = .ok 3 ∧
      (((((DHCPNet.mk 256 5 [] false).allocate_ip "52:54:00:00:00:01").2).release_ip 3).1
          = .ok () ∧
        3 ∉ (((((DHCPNet.mk 256 5 [] false).allocate_ip "52:54:00:00:00:01").2).release_ip 3).2).assigned ∧
        3 ∈ (((((DHCPNet.mk 256 5 [] false).allocate_ip "52:54:00:00:00:01").2).release_ip 3).2).available) :=
  ⟨rfl, c6_allocate_release_roundtrip (DHCPNet.mk 256 5 [] false)
      "52:54:00:00:00:01" 3 rfl⟩

/-- C10: `allocate_vpn_ip` is total — it raises no exhaustion or
already-allocated error for any state.  It always returns the VPN slot
(offset 2 of the subnet), binds that slot to the new consumer target in the
hosts hash (silently overwriting any existing lease of the slot, since
`hset` overwrites), and leaves every other lease unchanged. -/
theorem c10_allocate_vpn_overwrites (n : DHCPNet) (mac : String) :
    (n.allocate_vpn_ip mac).1 = 2 ∧
      hget ((n.allocate_vpn_ip mac).2).hosts 2 = some mac ∧
      ∀ b, b ≠ 2 → hget ((n.allocate_vpn_ip mac).2).hosts b = hget n.hosts b := by
  refine ⟨rfl, ?_, ?_⟩
  · show hget ((n.addHost 2 mac).express).hosts 2 = some mac
    rw [DHCPNet.express_hosts]
    exact hget_hset_self n.hosts 2 mac
  · intro b hb
    show hget ((n.addHost 2 mac).express).hosts b = hget n.hosts b
    rw [DHCPNet.express_hosts]
    exact hget_hset_other n.hosts 2 b mac hb

/-- Witness for C10 on a network whose VPN slot is already leased to
another target: the call still succeeds and the slot now maps to the new
target, while the unrelated lease at offset 10 is untouched. -/
theorem c10_witness :
    ((DHCPNet.mk 256 5 [(2, "old-target"), (10, "other")] true).allocate_vpn_ip "new-target").1
        = 2 ∧
      hget (((DHCPNet.mk 256 5 [(2, "old-target"), (10, "other")] true).allocate_vpn_ip "new-target").2).hosts 2
        = some "new-target" ∧
      hget (((DHCPNet.mk 256 5 [(2, "old-target"), (10, "other")] true).allocate_vpn_ip "new-target").2).hosts 10
        = hget (DHCPNet.mk 256 5 [(2, "old-target"), (10, "other")] true).hosts 10 :=
  ⟨(c10_allocate_vpn_overwrites (DHCPNet.mk 256 5 [(2, "old-target"), (10, "other")] true)
      "new-target").1,
    (c10_allocate_vpn_overwrites (DHCPNet.mk 256 5 [(2, "old-target"), (10, "other")] true)
      "new-target").2.1,
    (c10_allocate_vpn_overwrites (DHCPNet.mk 256 5 [(2, "old-target"), (10, "other")] true)
      "new-target").2.2 10 (by decide)⟩

/-! ### Lemmas about the public controller -/

theorem PubNet.saveAssoc_assigned (n : PubNet) (pub : Nat) (priv inst : String) :
    (n.saveAssoc pub priv inst).assigned = n.assigned := rfl

theorem PubNet.privOf_saveAssoc_self (n : PubNet) (pub : Nat) (priv inst : String) :
    PubNet.privOf (n.saveAssoc pub priv inst) pub = some priv := by
  unfold PubNet.privOf PubNet.saveAssoc
  rw [hget_hset_self]
  rfl

theorem PubNet.associate_ok (n : PubNet) (pub : Nat) (priv inst : String)
    (h : (n.associate_address pub priv inst).1 = .ok ()) :
    pub ∈ n.assigned ∧
      (∀ a ∈ n.assigned, PubNet.privOf n a ≠ some priv) ∧
      ((PubNet.privOf n pub).getD "available") = "available" ∧
      (n.associate_address pub priv inst).2 = n.saveAssoc pub priv inst := by
  unfold PubNet.associate_address at h ⊢
  by_cases h1 : pub ∉ n.assigned
  · rw [if_pos h1] at h
    exact absurd h (by simp)
  rw [if_neg h1] at h ⊢
  by_cases h2 : ((n.assigned).any fun a => PubNet.privOf n a = some priv) = true
  · rw [if_pos h2] at h
    exact absurd h (by simp)
  rw [if_neg h2] at h ⊢
  by_cases h3 : ((PubNet.privOf n pub).getD "available") ≠ "available"
  · rw [if_pos h3] at h
    exact absurd h (by simp)
  rw [if_neg h3] at h ⊢
  refine ⟨not_not.mp h1, ?_, not_not.mp h3, rfl⟩
  intro a ha hpa
  exact h2 (List.any_eq_true.mpr ⟨a, ha, by simpa using hpa⟩)

/-- C7: `associate_address` fails `AddressNotAllocated` when `public_ip` is
not leased; given a leased `public_ip` it fails `AddressAlreadyAssociated`
when some leased address's record already binds `private_ip`, and likewise
when `public_ip` itself is already bound; in particular a second
association of the same `public_ip` (the record exists, as `_add_host`
always creates it) and an association of a second public address to the
same `private_ip` both fail with `AddressAlreadyAssociated`. -/
theorem c7_associate_error_cases (n : PubNet) (pub : Nat) (priv inst : String) :
    (pub ∉ n.assigned →
      n.associate_address pub priv inst = (.error .addressNotAllocated, n)) ∧
    (pub ∈ n.assigned → (∃ a ∈ n.assigned, PubNet.privOf n a = some priv) →
      n.associate_address pub priv inst = (.error .addressAlreadyAssociated, n)) ∧
    (pub ∈ n.assigned → ((PubNet.privOf n pub).getD "available") ≠ "available" →
      n.associate_address pub priv inst = (.error .addressAlreadyAssociated, n)) ∧
    (∀ priv2 inst2, (PubNet.privOf n pub).isSome →
      (n.associate_address pub priv inst).1 = .ok () →
      (((n.associate_address pub priv inst).2).associate_address pub priv2 inst2).1
        = .error .addressAlreadyAssociated) ∧
    (∀ pub2 inst2, pub2 ∈ n.assigned →
      (n.associate_address pub priv inst).1 = .ok () →
      (((n.associate_address pub priv inst).2).associate_address pub2 priv inst2).1
        = .error .addressAlreadyAssociated) := by
  refine ⟨?_, ?_, ?_, ?_, ?_⟩
  · intro h1
    unfold PubNet.associate_address
    rw [if_pos h1]
  · rintro h1 ⟨a, ha, hpa⟩
    unfold PubNet.associate_address
    rw [if_neg (by simpa using h1),
      if_pos (List.any_eq_true.mpr ⟨a, ha, by simpa using hpa⟩)]
  · intro h1 h3
    unfold PubNet.associate_address
    rw [if_neg (by simpa using h1)]
    by_cases h2 : (n.assigned).any (fun a => PubNet.privOf n a = some priv)
    · rw [if_pos h2]
    · rw [if_neg h2, if_pos h3]
  · intro priv2 inst2 hrec hok
    obtain ⟨h1, h2, h3, hst⟩ := n.associate_ok pub priv inst hok
    obtain ⟨x, hx⟩ := Option.isSome_iff_exists.mp hrec
    have hxa : x = "available" := by
      rw [hx] at h3
      simpa using h3
    have hpriv : priv ≠ "available" := by
      intro hp
      exact h2 pub h1 (by rw [hx, hxa, hp])
    rw [hst]
    set n1 := n.saveAssoc pub priv inst with hn1
    have h1b : pub ∈ n1.assigned := by
      rw [PubNet.saveAssoc_assigned]; exact h1
    have hpb : PubNet.privOf n1 pub = some priv :=
      PubNet.privOf_saveAssoc_self n pub priv inst
    unfold PubNet.associate_address
    rw [if_neg (by simpa using h1b)]
    by_cases h2b : (n1.assigned).any (fun a => PubNet.privOf n1 a = some priv2)
    · rw [if_pos h2b]
    · rw [if_neg h2b, if_pos (by rw [hpb]; simpa using hpriv)]
  · intro pub2 inst2 hpub2 hok
    obtain ⟨h1, h2, h3, hst⟩ := n.associate_ok pub priv inst hok
    rw [hst]
    set n1 := n.saveAssoc pub priv inst with hn1
    have hpb : PubNet.privOf n1 pub = some priv :=
      PubNet.privOf_saveAssoc_self n pub priv inst
    have hpub2b : pub2 ∈ n1.assigned := by
      rw [PubNet.saveAssoc_assigned]; exact hpub2
    have h1b : pub ∈ n1.assigned := by
      rw [PubNet.saveAssoc_assigned]; exact h1
    unfold PubNet.associate_address
    rw [if_neg (by simpa using hpub2b),
      if_pos (List.any_eq_true.mpr ⟨pub, h1b, by simp [hpb]⟩)]

/-- Witness for C7 on `pubPool`: an unleased offset fails
`AddressNotAllocated`; associating to a `private_ip` already bound
elsewhere fails `AddressAlreadyAssociated`; associating an already-bound
public address fails `AddressAlreadyAssociated`; the second of two
successive associations of offset 2 fails; and associating offset 3 to the
private address just given to offset 2 fails. -/
theorem c7_witness :
    pubPool.associate_address 9 "10.0.0.5" "i-1"
        = (.error .addressNotAllocated, pubPool) ∧
      pubPool.associate_address 2 "10.9.9.9" "i-1"
        = (.error .addressAlreadyAssociated, pubPool) ∧
      pubPool.associate_address 4 "10.0.0.5" "i-1"
        = (.error .addressAlreadyAssociated, pubPool) ∧
      ((pubPool.associate_address 2 "10.0.0.5" "i-1").2.associate_address 2
          "10.0.0.6" "i-2").1 = .error .addressAlreadyAssociated ∧
      ((pubPool.associate_address 2 "10.0.0.5" "i-1").2.associate_address 3
          "10.0.0.5" "i-2").1 = .error .addressAlreadyAssociated :=
  ⟨(c7_associate_error_cases pubPool 9 "10.0.0.5" "i-1").1 (by decide),
    (c7_associate_error_cases pubPool 2 "10.9.9.9" "i-1").2.1 (by decide)
      ⟨4, by decide, by decide⟩,
    (c7_associate_error_cases pubPool 4 "10.0.0.5" "i-1").2.2.1 (by decide)
      (by decide),
    (c7_associate_error_cases pubPool 2 "10.0.0.5" "i-1").2.2.2.1 "10.0.0.6"
      "i-2" (by decide) rfl,
    (c7_associate_error_cases pubPool 2 "10.0.0.5" "i-1").2.2.2.2 3 "i-2"
      (by decide) rfl⟩

/-- C8 counterexample: the claim says only the network address (offset 0)
and the broadcast address (offset `size - 1`) are reserved, so the unleased
offset 1 of an empty /24 public pool should be eligible for allocation; in
the code `available` starts the scan at offset 2, so offset 1 is never
eligible. -/
theorem c8_counterexample :
    (1 : Nat) ∉ (PubNet.mk 256 [] []).assigned ∧
      1 < 256 - 1 ∧
      (1 : Nat) ∉ (PubNet.mk 256 [] []).available := by
  refine ⟨by decide, by decide, by decide⟩

/-- C8 as amended: the public pool reserves three offsets — the network
address 0, offset 1 (the gateway slot), and the broadcast address
`size - 1`; an address is eligible for public allocation exactly when its
offset lies in `[2, size - 1)` and it is not currently leased. -/
theorem c8_amended_available_window (n : PubNet) (a : Nat) :
    a ∈ n.available ↔ (2 ≤ a ∧ a < n.size - 1) ∧ a ∉ n.assigned := by
  unfold PubNet.available
  rw [List.mem_filter, List.mem_range'_1]
  constructor
  · rintro ⟨⟨h1, h2⟩, hna⟩
    exact ⟨⟨h1, by omega⟩, by simpa using hna⟩
  · rintro ⟨⟨h1, h2⟩, hna⟩
    exact ⟨⟨h1, by omega⟩, by simpa using hna⟩

/-! ### Lemmas about the VLAN allocator -/

theorem VlanState.save_projects (s : VlanState) (p : String) (v : Nat) :
    (s.save p v).projects = s.projects := rfl

theorem VlanState.lookup_save_self (s : VlanState) (p : String) (v : Nat) :
    (s.save p v).lookup p = some v :=
  hget_hset_self s.vlans p v

theorem VlanState.lookup_save_other (s : VlanState) (p q : String) (v : Nat)
    (h : q ≠ p) : (s.save p v).lookup q = s.lookup q :=
  hget_hset_other s.vlans p q v h

theorem VlanState.lookup_destroy_other (s : VlanState) (p q : String)
    (h : q ≠ p) : (s.destroy p).lookup q = s.lookup q :=
  hget_hdel_other s.vlans p q h

theorem scanVlans_cons_unowned (p : String) (s : VlanState) (u : Nat)
    (t : List Nat) (hd : s.dictByVlan u = none) :
    scanVlans p s (u :: t) = (.ok u, s.save p u) := by
  simp only [scanVlans, hd]

theorem scanVlans_cons_owned_live (p : String) (s : VlanState) (u : Nat)
    (t : List Nat) (old : String) (hd : s.dictByVlan u = some old)
    (ho : old ∈ s.projects) :
    scanVlans p s (u :: t) = scanVlans p s t := by
  simp only [scanVlans, hd]
  rw [if_pos ho]

theorem scanVlans_cons_reclaim (p : String) (s : VlanState) (u : Nat)
    (t : List Nat) (old : String) (w : Nat) (hd : s.dictByVlan u = some old)
    (ho : old ∉ s.projects) (hlo : s.lookup old = some w) :
    scanVlans p s (u :: t) = (.ok w, (s.destroy old).save p w) := by
  simp only [scanVlans, hd]
  rw [if_neg ho]
  simp only [hlo]

theorem scanVlans_cons_reclaim_missing (p : String) (s : VlanState) (u : Nat)
    (t : List Nat) (old : String) (hd : s.dictByVlan u = some old)
    (ho : old ∉ s.projects) (hlo : s.lookup old = none) :
    scanVlans p s (u :: t) = (.ok u, s.save p u) := by
  simp only [scanVlans, hd]
  rw [if_neg ho]
  simp only [hlo]

theorem scanVlans_skip_owned (p : String) (s : VlanState) (l1 l2 : List Nat)
    (h : ∀ u ∈ l1, ∃ q, s.dictByVlan u = some q ∧ q ∈ s.projects) :
    scanVlans p s (l1 ++ l2) = scanVlans p s l2 := by
  induction l1 with
  | nil => rfl
  | cons u t ih =>
    obtain ⟨q, hq, hqp⟩ := h u (List.mem_cons_self u t)
    have ht := fun w hw => h w (List.mem_cons_of_mem u hw)
    rw [List.cons_append, scanVlans_cons_owned_live p s u (t ++ l2) q hq hqp]
    exact ih ht

theorem scanVlans_exhausted (p : String) (s : VlanState) (l : List Nat)
    (h : ∀ u ∈ l, ∃ q, s.dictByVlan u = some q ∧ q ∈ s.projects) :
    scanVlans p s l = (.error .addressNotAllocated, s) := by
  have hskip := scanVlans_skip_owned p s l [] h
  rw [List.append_nil] at hskip
  rw [hskip]
  rfl

theorem scanVlans_ok_lookup (p : String) (s : VlanState) (l : List Nat)
    (v : Nat) (s1 : VlanState) (h : scanVlans p s l = (.ok v, s1)) :
    s1.lookup p = some v := by
  induction l with
  | nil => simp [scanVlans] at h
  | cons u t ih =>
    cases hd : s.dictByVlan u with
    | none =>
      rw [scanVlans_cons_unowned p s u t hd] at h
      simp only [Prod.mk.injEq, Except.ok.injEq] at h
      obtain ⟨hv, hs⟩ := h
      subst hv
      subst hs
      exact VlanState.lookup_save_self s p u
    | some old =>
      by_cases ho : old ∈ s.projects
      · rw [scanVlans_cons_owned_live p s u t old hd ho] at h
        exact ih h
      · cases hlo : s.lookup old with
        | some w =>
          rw [scanVlans_cons_reclaim p s u t old w hd ho hlo] at h
          simp only [Prod.mk.injEq, Except.ok.injEq] at h
          obtain ⟨hv, hs⟩ := h
          subst hv
          subst hs
          exact VlanState.lookup_save_self (s.destroy old) p w
        | none =>
          rw [scanVlans_cons_reclaim_missing p s u t old hd ho hlo] at h
          simp only [Prod.mk.injEq, Except.ok.injEq] at h
          obtain ⟨hv, hs⟩ := h
          subst hv
          subst hs
          exact VlanState.lookup_save_self s p u

theorem scanVlans_projects (p : String) (s : VlanState) (l : List Nat) :
    ((scanVlans p s l).2).projects = s.projects := by
  induction l with
  | nil => rfl
  | cons u t ih =>
    cases hd : s.dictByVlan u with
    | none =>
      rw [scanVlans_cons_unowned p s u t hd]
      rfl
    | some old =>
      by_cases ho : old ∈ s.projects
      · rw [scanVlans_cons_owned_live p s u t old hd ho]
        exact ih
      · cases hlo : s.lookup old with
        | some w =>
          rw [scanVlans_cons_reclaim p s u t old w hd ho hlo]
          rfl
        | none =>
          rw [scanVlans_cons_reclaim_missing p s u t old hd ho hlo]
          rfl

theorem scanVlans_preserves_lookup (p q : String) (s : VlanState)
    (l : List Nat) (v : Nat) (hpq : p ≠ q) (hp : s.lookup p = some v)
    (hpe : p ∈ s.projects) :
    ((scanVlans q s l).2).lookup p = some v := by
  induction l with
  | nil => exact hp
  | cons u t ih =>
    cases hd : s.dictByVlan u with
    | none =>
      rw [scanVlans_cons_unowned q s u t hd]
      show ((s.save q u)).lookup p = some v
      rw [VlanState.lookup_save_other s q p u hpq]
      exact hp
    | some old =>
      by_cases ho : old ∈ s.projects
      · rw [scanVlans_cons_owned_live q s u t old hd ho]
        exact ih
      · cases hlo : s.lookup old with
        | some w =>
          have hop : p ≠ old := fun he => ho (he ▸ hpe)
          rw [scanVlans_cons_reclaim q s u t old w hd ho hlo]
          show (((s.destroy old).save q w)).lookup p = some v
          rw [VlanState.lookup_save_other _ q p w hpq,
            VlanState.lookup_destroy_other s old p hop]
          exact hp
        | none =>
          rw [scanVlans_cons_reclaim_missing q s u t old hd ho hlo]
          show ((s.save q u)).lookup p = some v
          rw [VlanState.lookup_save_other s q p u hpq]
          exact hp

theorem get_vlan_hit (a b : Nat) (s : VlanState) (p : String) (v : Nat)
    (h : s.lookup p = some v) :
    get_vlan_for_project a b s p = (.ok v, s) := by
  simp only [get_vlan_for_project, h]

theorem get_vlan_miss (a b : Nat) (s : VlanState) (p : String)
    (h : s.lookup p = none) :
    get_vlan_for_project a b s p
      = scanVlans p s (List.range' a (b - a)) := by
  simp only [get_vlan_for_project, h]

theorem get_vlan_ok_lookup (a b : Nat) (s : VlanState) (p : String)
    (v : Nat) (s1 : VlanState)
    (h : get_vlan_for_project a b s p = (.ok v, s1)) :
    s1.lookup p = some v := by
  cases hl : s.lookup p with
  | some w =>
    rw [get_vlan_hit a b s p w hl] at h
    simp only [Prod.mk.injEq, Except.ok.injEq] at h
    obtain ⟨hv, hs⟩ := h
    subst hv
    subst hs
    exact hl
  | none =>
    rw [get_vlan_miss a b s p hl] at h
    exact scanVlans_ok_lookup p s _ v s1 h

theorem get_vlan_projects (a b : Nat) (s : VlanState) (p : String) :
    ((get_vlan_for_project a b s p).2).projects = s.projects := by
  cases hl : s.lookup p with
  | some w => rw [get_vlan_hit a b s p w hl]
  | none =>
    rw [get_vlan_miss a b s p hl]
    exact scanVlans_projects p s _

theorem allocStep_preserves (a b : Nat) (s : VlanState) (p q : String)
    (v : Nat) (hp : s.lookup p = some v) (hpe : p ∈ s.projects) :
    (allocStep a b s q).lookup p = some v ∧
      (allocStep a b s q).projects = s.projects := by
  unfold allocStep
  cases hl : s.lookup q with
  | some w => rw [get_vlan_hit a b s q w hl]; exact ⟨hp, rfl⟩
  | none =>
    have hpq : p ≠ q := fun he => by rw [he, hl] at hp; cases hp
    rw [get_vlan_miss a b s q hl]
    exact ⟨scanVlans_preserves_lookup p q s _ v hpq hp hpe,
      scanVlans_projects q s _⟩

theorem allocRun_preserves (a b : Nat) (s : VlanState) (p : String)
    (v : Nat) (qs : List String) (hp : s.lookup p = some v)
    (hpe : p ∈ s.projects) :
    (allocRun a b s qs).lookup p = some v ∧
      (allocRun a b s qs).projects = s.projects := by
  induction qs generalizing s with
  | nil => exact ⟨hp, rfl⟩
  | cons q t ih =>
    obtain ⟨h1, h2⟩ := allocStep_preserves a b s p q v hp hpe
    obtain ⟨h3, h4⟩ := ih (allocStep a b s q) h1 (h2 ▸ hpe)
    constructor
    · show (allocRun a b (allocStep a b s q) t).lookup p = some v
      exact h3
    · show (allocRun a b (allocStep a b s q) t).projects = s.projects
      rw [h4, h2]

/-- C2 counterexample: with `vlan_start = 100`, `vlan_end = 102`, both ids
owned (`A ↦ 100`, `B ↦ 101`) and both owning tenants still existing, the
allocator for the fresh tenant `D` raises `AddressNotAllocated`
("Out of VLANs") — the very exception class the claim says the exhaustion
failure is distinct from, and not a `ResourcePoolExhausted`. -/
theorem c2_counterexample :
    (get_vlan_for_project 100 102
        (VlanState.mk [("A", 100), ("B", 101)] ["A", "B"]) "D").1
      = .error .addressNotAllocated ∧
    (get_vlan_for_project 100 102
        (VlanState.mk [("A", 100), ("B", 101)] ["A", "B"]) "D").1
      ≠ .error .resourcePoolExhausted := by
  constructor
  · rfl
  · intro h
    have h2 : NetErr.addressNotAllocated = NetErr.resourcePoolExhausted :=
      Except.error.inj h
    exact absurd h2 (by decide)

/-- C2 as amended: when the tenant has no VLAN yet, every id in
`[vlan_start, vlan_end)` has a recorded owner, and every owner still
exists, the allocator fails — but with `AddressNotAllocated("Out of
VLANs")`, the same exception class used for precondition violations, not
with a distinct `ResourcePoolExhausted`. -/
theorem c2_amended_exhaustion_error (a b : Nat) (s : VlanState) (p : String)
    (hp : s.lookup p = none)
    (hall : ∀ u ∈ List.range' a (b - a),
      ∃ q, s.dictByVlan u = some q ∧ q ∈ s.projects) :
    get_vlan_for_project a b s p = (.error .addressNotAllocated, s) := by
  rw [get_vlan_miss a b s p hp]
  exact scanVlans_exhausted p s _ hall

/-- Witness for the amended C2 at the concrete exhausted pool. -/
theorem c2_witness :
    get_vlan_for_project 100 102
        (VlanState.mk [("A", 100), ("B", 101)] ["A", "B"]) "D"
      = (.error .addressNotAllocated,
          VlanState.mk [("A", 100), ("B", 101)] ["A", "B"]) := by
  refine c2_amended_exhaustion_error 100 102 _ "D" rfl ?_
  intro u hu
  have hb := List.mem_range'_1.mp hu
  have : u = 100 ∨ u = 101 := by omega
  rcases this with rfl | rfl
  · exact ⟨"A", rfl, by decide⟩
  · exact ⟨"B", rfl, by decide⟩

/-- C3 counterexample: with `vlan_start = 100`, `vlan_end = 103`, id 100
owned by the vanished tenant `X` and id 101 unowned, the allocator for the
new tenant `P` does not return the smallest unowned id 101: it reclaims id
100 from `X` and returns 100. -/
theorem c3_counterexample :
    (VlanState.mk [("X", 100)] ["P"]).dictByVlan 100 = some "X" ∧
    "X" ∉ (VlanState.mk [("X", 100)] ["P"]).projects ∧
    (VlanState.mk [("X", 100)] ["P"]).dictByVlan 101 = none ∧
    get_vlan_for_project 100 103 (VlanState.mk [("X", 100)] ["P"]) "P"
      = (.ok 100, VlanState.mk [("P", 100)] ["P"]) ∧
    (get_vlan_for_project 100 103 (VlanState.mk [("X", 100)] ["P"]) "P").1
      ≠ .ok 101 := by
  refine ⟨rfl, by decide, rfl, rfl, ?_⟩
  intro h
  exact absurd (Except.ok.inj h) (by decide)

/-- C3 as amended: the claim's conclusion holds only when no lower owned id
belongs to a vanished tenant.  When the tenant has no VLAN yet, `v` is in
range and unowned, and every id scanned before `v` is owned by a tenant
that still exists, the allocator assigns and persists `v` to the tenant and
returns it. -/
theorem c3_amended_first_unowned (a b v : Nat) (s : VlanState) (p : String)
    (hp : s.lookup p = none) (hav : a ≤ v) (hvb : v < b)
    (hfree : s.dictByVlan v = none)
    (hbefore : ∀ u ∈ List.range' a (v - a),
      ∃ q, s.dictByVlan u = some q ∧ q ∈ s.projects) :
    get_vlan_for_project a b s p = (.ok v, s.save p v) := by
  obtain ⟨rest, hsplit⟩ : ∃ rest,
      List.range' a (b - a) = List.range' a (v - a) ++ (v :: rest) := by
    obtain ⟨w, hw⟩ : ∃ w, b - v = w + 1 := ⟨b - v - 1, by omega⟩
    refine ⟨List.range' (v + 1) w, ?_⟩
    have h1 := List.range'_append a (v - a) (b - v) 1
    have h2 : a + 1 * (v - a) = v := by omega
    have h3 : (b - v) + (v - a) = b - a := by omega
    rw [h2, h3] at h1
    rw [← h1, hw, List.range'_succ]
  rw [get_vlan_miss a b s p hp, hsplit,
    scanVlans_skip_owned p s _ _ hbefore,
    scanVlans_cons_unowned p s v rest hfree]

/-- Witness for the amended C3: id 100 is owned by the still-existing
tenant `A`, so the fresh tenant `P` receives the first unowned id 101. -/
theorem c3_witness :
    get_vlan_for_project 100 103 (VlanState.mk [("A", 100)] ["A"]) "P"
      = (.ok 101, (VlanState.mk [("A", 100)] ["A"]).save "P" 101) := by
  refine c3_amended_first_unowned 100 103 101 _ "P" rfl (by decide) (by decide)
    rfl ?_
  intro u hu
  have hb := List.mem_range'_1.mp hu
  have : u = 100 := by omega
  subst this
  exact ⟨"A", rfl, by decide⟩

/-- C9: VLAN allocation is idempotent per tenant.  If tenant `p` exists and
its first `get_vlan_for_project` call returns vlan `v`, then after any
finite sequence of interleaved allocator calls for arbitrary tenants,
calling `get_vlan_for_project` for `p` again returns the same `v` (and
leaves the state unchanged). -/
theorem c9_vlan_allocation_idempotent (a b : Nat) (s : VlanState)
    (p : String) (v : Nat) (s1 : VlanState) (qs : List String)
    (hpe : p ∈ s.projects)
    (h1 : get_vlan_for_project a b s p = (.ok v, s1)) :
    get_vlan_for_project a b (allocRun a b s1 qs) p
      = (.ok v, allocRun a b s1 qs) := by
  have hl1 : s1.lookup p = some v := get_vlan_ok_lookup a b s p v s1 h1
  have hproj : s1.projects = s.projects := by
    have hq := get_vlan_projects a b s p
    rw [h1] at hq
    exact hq
  have hpe1 : p ∈ s1.projects := hproj ▸ hpe
  obtain ⟨hl2, _⟩ := allocRun_preserves a b s1 p v qs hl1 hpe1
  exact get_vlan_hit a b _ p v hl2

/-- Witness for C9: tenant `P` gets vlan 100 from an empty pool; after an
interleaved allocation for tenant `Q` and a repeated call for `P` itself,
a further call for `P` still returns 100. -/
theorem c9_witness :
    get_vlan_for_project 100 103
        (allocRun 100 103 (VlanState.mk [("P", 100)] ["P", "Q"]) ["Q", "P"]) "P"
      = (.ok 100,
          allocRun 100 103 (VlanState.mk [("P", 100)] ["P", "Q"]) ["Q", "P"]) :=
  c9_vlan_allocation_idempotent 100 103 (VlanState.mk [] ["P", "Q"]) "P" 100
    (VlanState.mk [("P", 100)] ["P", "Q"]) ["Q", "P"] (by decide) rfl

end Nova
